import Mathlib

/-!
Shallow embedding of `rusty-state-machine` (src/src/lib.rs): a generic
finite-state-machine engine with an adjacency index, a dispatch/transition
algorithm, observer hooks, transition history, and an id-addressed
hydrate/dehydrate codec.

Modelling conventions:
* A Rust `&'a State` reference is modelled as a `State` value carrying the
  referent's memory address in `addr` (so `std::ptr::eq` is comparison of
  `addr`) together with the single Rust struct field `id`.  The Rust
  `#[derive(PartialEq, Eq, Hash)]` on `State` compares only the `id` field,
  so every value-equality operation on states (the `HashMap` keyed by
  `&State`, the `find` calls of hydration) is modelled as comparison of ids.
* The `HashMap<&'a State, Vec<&'a Edge>>` is modelled as an association list
  with `HashMap::insert` / `HashMap::get` semantics under id-keyed equality
  (insert replaces the value of an existing equal key; get returns the value
  of the first equal key); dispatch only ever reads it through `get`, so the
  iteration order of the hash map is irrelevant.
* Hooks are `FnMut` observers that can only mutate caller-owned auxiliary
  data, never the machine, so each hook slot is modelled as a registration
  flag and dispatch additionally emits the ordered trace of hook firings
  (with the exact arguments the code passes) and of decision-function
  invocations.
* Panics (`unwrap`, `expect`, `assert!`) abort dispatch; `dispatch` returns a
  `DispatchResult` carrying the machine fields as they are at the point of
  return or panic, plus an `error` describing the panic if one occurred.
-/

namespace RustyStateMachine

/-- Models `&'a State`: `addr` is the referent's address (used by
`std::ptr::eq` in `StateMachine::new`), `id` the single field of the Rust
struct `State` (lib.rs lines 24-27); derived equality on the Rust struct
compares `id` only. -/
structure State where
  addr : Nat
  id : String
deriving DecidableEq

/-- `Event` (lib.rs lines 29-33). -/
structure Event (EventPayload : Type) where
  id : String
  payload : EventPayload
deriving DecidableEq

/-- `Edge<'a, EdgeInfo>` (lib.rs lines 35-41); `from_state` / `to_state`
model the `&'a State` references. -/
structure Edge (EdgeInfo : Type) where
  id : String
  from_state : State
  to_state : State
  info : EdgeInfo
deriving DecidableEq

/-- `DeserializableEdge<'a, Info>` (lib.rs lines 16-22). -/
structure DeserializableEdge (EdgeInfo : Type) where
  id : String
  from_state_id : String
  to_state_id : String
  info : EdgeInfo
deriving DecidableEq

/-- `TransitionRecord<'a, 'b, EventPayload, EdgeInfo, Context>`
(lib.rs lines 88-95). -/
structure TransitionRecord (EventPayload EdgeInfo Context : Type) where
  from_state : State
  to_state : State
  event : Event EventPayload
  edge : Edge EdgeInfo
  context : Context
deriving DecidableEq

/-- `DeserializableTransitionRecord<'a, 'b, Context>` (lib.rs lines 7-14). -/
structure DeserializableTransitionRecord (Context : Type) where
  from_state_id : String
  to_state_id : String
  event_id : String
  edge_id : String
  context : Context
deriving DecidableEq

/-- `Edge::hydrate` (lib.rs lines 44-75): two `find`/`expect` lookups by id;
the `expect` panic on a missing id is modelled as `none`. -/
def Edge.hydrate {EdgeInfo : Type} (deserializable_edge : DeserializableEdge EdgeInfo)
    (states : List State) : Option (Edge EdgeInfo) :=
  match states.find? (fun state => state.id == deserializable_edge.from_state_id) with
  | none => none
  | some from_state =>
    match states.find? (fun state => state.id == deserializable_edge.to_state_id) with
    | none => none
    | some to_state =>
      some { id := deserializable_edge.id
             from_state := from_state
             to_state := to_state
             info := deserializable_edge.info }

/-- `impl From<Edge> for DeserializableEdge` (lib.rs lines 77-86). -/
def Edge.dehydrate {EdgeInfo : Type} (edge : Edge EdgeInfo) : DeserializableEdge EdgeInfo :=
  { id := edge.id
    from_state_id := edge.from_state.id
    to_state_id := edge.to_state.id
    info := edge.info }

/-- `TransitionRecord::hydrate` (lib.rs lines 100-154): four `find`/`expect`
lookups by id, in the order from-state, to-state, event, edge; a missing id
(an `expect` panic) is modelled as `none`. -/
def TransitionRecord.hydrate {EventPayload EdgeInfo Context : Type}
    (deserializable_transition_record : DeserializableTransitionRecord Context)
    (states : List State) (edges : List (Edge EdgeInfo))
    (events : List (Event EventPayload)) :
    Option (TransitionRecord EventPayload EdgeInfo Context) :=
  match states.find?
      (fun state => state.id == deserializable_transition_record.from_state_id) with
  | none => none
  | some from_state =>
    match states.find?
        (fun state => state.id == deserializable_transition_record.to_state_id) with
    | none => none
    | some to_state =>
      match events.find?
          (fun event => event.id == deserializable_transition_record.event_id) with
      | none => none
      | some event =>
        match edges.find?
            (fun edge => edge.id == deserializable_transition_record.edge_id) with
        | none => none
        | some edge =>
          some { from_state := from_state
                 to_state := to_state
                 event := event
                 edge := edge
                 context := deserializable_transition_record.context }

/-- `impl From<TransitionRecord> for DeserializableTransitionRecord`
(lib.rs lines 156-169). -/
def TransitionRecord.dehydrate {EventPayload EdgeInfo Context : Type}
    (state_transition : TransitionRecord EventPayload EdgeInfo Context) :
    DeserializableTransitionRecord Context :=
  { from_state_id := state_transition.from_state.id
    to_state_id := state_transition.to_state.id
    event_id := state_transition.event.id
    edge_id := state_transition.edge.id
    context := state_transition.context }

/-- `EventHandler` (lib.rs lines 171-172). -/
def EventHandler (EventPayload EdgeInfo Context : Type) : Type :=
  Event EventPayload → Edge EdgeInfo → Context → Option Context

/-- `HashMap::insert` on a map keyed by `&'a State` (equality = id equality):
replace the value of the first id-equal key, keeping the stored key,
otherwise add a new entry. -/
def mapInsert {EdgeInfo : Type} (m : List (State × List (Edge EdgeInfo)))
    (k : State) (v : List (Edge EdgeInfo)) : List (State × List (Edge EdgeInfo)) :=
  match m with
  | [] => [(k, v)]
  | (k0, v0) :: rest =>
    if k0.id = k.id then (k0, v) :: rest
    else (k0, v0) :: mapInsert rest k v

/-- `HashMap::get` keyed by `&'a State` (equality = id equality). -/
def mapGet {EdgeInfo : Type} (m : List (State × List (Edge EdgeInfo)))
    (k : State) : Option (List (Edge EdgeInfo)) :=
  match m with
  | [] => none
  | (k0, v0) :: rest => if k0.id = k.id then some v0 else mapGet rest k

/-- The adjacency-index construction loop of `StateMachine::new`
(lib.rs lines 286-295): for each state, in order, collect the edges whose
`from_state` is `ptr::eq` to it (address comparison) in edge order, and
insert the list into the map. -/
def buildStateToEdgeMap {EdgeInfo : Type} (states : List State)
    (edges : List (Edge EdgeInfo)) : List (State × List (Edge EdgeInfo)) :=
  states.foldl
    (fun m state =>
      mapInsert m state (edges.filter (fun edge => edge.from_state.addr == state.addr)))
    []

/-- `StateMachine` (lib.rs lines 174-219).  The three hook slots present in
the source (`start_dispatch_hook`, `end_dispatch_hook`,
`on_edge_traversal_hook`; the state-entry/exit slots are commented out) are
observers, modelled as registration flags — dispatch reports their firings
in a trace. -/
structure StateMachine (EventPayload EdgeInfo Context : Type) where
  transition_history : List (TransitionRecord EventPayload EdgeInfo Context)
  current_state : Option State
  current_context : Context
  states : List State
  edges : List (Edge EdgeInfo)
  state_to_edge_map : List (State × List (Edge EdgeInfo))
  event_handler : EventHandler EventPayload EdgeInfo Context
  has_start_dispatch_hook : Bool
  has_end_dispatch_hook : Bool
  has_on_edge_traversal_hook : Bool

/-- `StateMachine::new` (lib.rs lines 242-342). -/
def StateMachine.new {EventPayload EdgeInfo Context : Type}
    (initial_state : State) (initial_context : Context)
    (states : List State) (edges : List (Edge EdgeInfo))
    (event_handler : EventHandler EventPayload EdgeInfo Context)
    (has_start_dispatch_hook has_end_dispatch_hook has_on_edge_traversal_hook : Bool) :
    StateMachine EventPayload EdgeInfo Context :=
  { transition_history := []
    current_state := some initial_state
    current_context := initial_context
    states := states
    edges := edges
    state_to_edge_map := buildStateToEdgeMap states edges
    event_handler := event_handler
    has_start_dispatch_hook := has_start_dispatch_hook
    has_end_dispatch_hook := has_end_dispatch_hook
    has_on_edge_traversal_hook := has_on_edge_traversal_hook }

/-- A panic inside `dispatch`/`transition`:
`unwrapNone` — `current_state.unwrap()` on `None`;
`missingStateIndex` — `.expect("Could not find a state")` (lib.rs line 363);
`ambiguousTransition` — `assert!(..., "Cannot have multiple transitioning edges")`
(lib.rs lines 367-370). -/
inductive DispatchError where
  | unwrapNone
  | missingStateIndex
  | ambiguousTransition
deriving DecidableEq

/-- One hook firing, with the arguments the code passes to the closure
(the state-set/edge-set arguments are the machine's fixed `states`/`edges`
fields and are omitted); `histAppend` marks the `transition_history.push`. -/
inductive HookEvent (EventPayload EdgeInfo Context : Type) where
  | start (event : Event EventPayload) (s : State) (c : Context)
  | edgeTraversal (event : Event EventPayload) (edge : Edge EdgeInfo) (c : Context)
  | histAppend (r : TransitionRecord EventPayload EdgeInfo Context)
  | endDispatch (event : Event EventPayload) (s : State) (c : Context)
deriving DecidableEq

/-- Result of one `dispatch` call: the machine fields as they are when
`dispatch` returns (or at the panic point), the ordered list of edges on
which the decision function was invoked, the ordered hook/append trace, and
the panic if one occurred. -/
structure DispatchResult (EventPayload EdgeInfo Context : Type) where
  machine : StateMachine EventPayload EdgeInfo Context
  handlerCalls : List (Edge EdgeInfo)
  hookTrace : List (HookEvent EventPayload EdgeInfo Context)
  error : Option DispatchError

/-- The edge-evaluation loop of `dispatch` (lib.rs lines 359-373): invoke the
decision function on each edge in order against the fixed pre-dispatch
context, remembering the matching edge; on a second match the `assert!`
panics.  Returns the edges the handler was invoked on (in order) and
`some acc` on normal completion, `none` for the assertion panic. -/
def scanEdges {EventPayload EdgeInfo Context : Type}
    (event_handler : EventHandler EventPayload EdgeInfo Context)
    (event : Event EventPayload) (ctx : Context) :
    List (Edge EdgeInfo) → Option (Edge EdgeInfo × Context) →
    List (Edge EdgeInfo) × Option (Option (Edge EdgeInfo × Context))
  | [], acc => ([], some acc)
  | edge :: rest, acc =>
    match event_handler event edge ctx with
    | none =>
      let r := scanEdges event_handler event ctx rest acc
      (edge :: r.1, r.2)
    | some new_context =>
      match acc with
      | some _ => ([edge], none)
      | none =>
        let r := scanEdges event_handler event ctx rest (some (edge, new_context))
        (edge :: r.1, r.2)

/-- `StateMachine::transition` (lib.rs lines 389-431), called by `dispatch`
only after `self.current_state.unwrap()` succeeded with value `cur` (and no
intervening write).  Fires the edge-traversal hook with the context about to
be installed, then pushes the history record and swaps the context.  The
record's `context` is the old context (`mem::replace` on
`self.current_context` returns it) and its `from_state` is the old current
state; but `std::mem::replace(&mut self.current_state.unwrap(), edge.to_state)`
(line 418) writes `edge.to_state` into a temporary copy of the unwrapped
reference, so the `current_state` field itself is left unchanged. -/
def transitionStep {EventPayload EdgeInfo Context : Type}
    (m : StateMachine EventPayload EdgeInfo Context) (cur : State)
    (event : Event EventPayload) (edge : Edge EdgeInfo) (context : Context) :
    StateMachine EventPayload EdgeInfo Context ×
      List (HookEvent EventPayload EdgeInfo Context) :=
  let traversalTrace :=
    if m.has_on_edge_traversal_hook then
      [HookEvent.edgeTraversal event edge context]
    else []
  let record : TransitionRecord EventPayload EdgeInfo Context :=
    { context := m.current_context
      edge := edge
      event := event
      from_state := cur
      to_state := edge.to_state }
  ({ m with
      current_context := context
      transition_history := m.transition_history ++ [record] },
   traversalTrace ++ [HookEvent.histAppend record])

/-- `StateMachine::dispatch` (lib.rs lines 344-387). -/
def dispatch {EventPayload EdgeInfo Context : Type}
    (m : StateMachine EventPayload EdgeInfo Context) (event : Event EventPayload) :
    DispatchResult EventPayload EdgeInfo Context :=
  match m.current_state with
  | none =>
    -- `self.current_state.unwrap()` (line 348 if the start hook is
    -- registered, otherwise line 362) panics before any hook fires.
    { machine := m, handlerCalls := [], hookTrace := [], error := some .unwrapNone }
  | some cur =>
    let startTrace :=
      if m.has_start_dispatch_hook then
        [HookEvent.start event cur m.current_context]
      else []
    match mapGet m.state_to_edge_map cur with
    | none =>
      { machine := m, handlerCalls := [], hookTrace := startTrace
        error := some .missingStateIndex }
    | some stateEdges =>
      match scanEdges m.event_handler event m.current_context stateEdges none with
      | (calls, none) =>
        { machine := m, handlerCalls := calls, hookTrace := startTrace
          error := some .ambiguousTransition }
      | (calls, some none) =>
        let endTrace :=
          if m.has_end_dispatch_hook then
            [HookEvent.endDispatch event cur m.current_context]
          else []
        { machine := m, handlerCalls := calls, hookTrace := startTrace ++ endTrace
          error := none }
      | (calls, some (some (edge, new_context))) =>
        let tr := transitionStep m cur event edge new_context
        match tr.1.current_state with
        | none =>
          { machine := tr.1, handlerCalls := calls, hookTrace := startTrace ++ tr.2
            error := some .unwrapNone }
        | some cur' =>
          let endTrace :=
            if tr.1.has_end_dispatch_hook then
              [HookEvent.endDispatch event cur' tr.1.current_context]
            else []
          { machine := tr.1, handlerCalls := calls
            hookTrace := startTrace ++ tr.2 ++ endTrace
            error := none }

/-- A sequence of `dispatch` calls, threading the machine. -/
def runDispatches {EventPayload EdgeInfo Context : Type}
    (m : StateMachine EventPayload EdgeInfo Context) :
    List (Event EventPayload) → StateMachine EventPayload EdgeInfo Context
  | [] => m
  | event :: rest => runDispatches (dispatch m event).machine rest

/-- The adjacency-index property in the spec's words ("partitioning the edge
set by from-state identity (by id, not address)"), stated for comparison
against `buildStateToEdgeMap`: each supplied state's indexed list is exactly
the supplied edges whose from-state id equals the state's id, in supplied
order. -/
def indexGroupsById {EdgeInfo : Type} (states : List State)
    (edges : List (Edge EdgeInfo)) : Prop :=
  ∀ s ∈ states, mapGet (buildStateToEdgeMap states edges) s =
    some (edges.filter (fun edge => edge.from_state.id == s.id))

/-! Concrete instances used below, following the scenarios of the test
module of lib.rs (lines 434-696): states A and B (and C), edges out of A,
a decision function that fires on every event and one that never fires. -/

def sA : State := { addr := 0, id := "A" }

def sB : State := { addr := 1, id := "B" }

def sC : State := { addr := 2, id := "C" }

def sX : State := { addr := 9, id := "X" }

/-- A second `State` object with id "A" living at a different address (a
clone of `sA`), to exercise id-vs-address aliasing. -/
def sAalias : State := { addr := 3, id := "A" }

def edgeAB : Edge Unit := { id := "e1", from_state := sA, to_state := sB, info := () }

def edgeAB2 : Edge Unit := { id := "e2", from_state := sA, to_state := sB, info := () }

def edgeAC : Edge Unit := { id := "e3", from_state := sA, to_state := sC, info := () }

/-- An edge whose `from_state` reference points at the aliasing clone
`sAalias` rather than at `sA` itself. -/
def edgeAliasA : Edge Unit := { id := "ea", from_state := sAalias, to_state := sB, info := () }

def evGo : Event Unit := { id := "go", payload := () }

def handlerAlways : EventHandler Unit Unit Nat := fun _ _ c => some (c + 1)

def handlerNever : EventHandler Unit Unit Nat := fun _ _ _ => none

def mSingle : StateMachine Unit Unit Nat :=
  StateMachine.new sA 0 [sA, sB] [edgeAB] handlerAlways false false false

def mAmbiguous : StateMachine Unit Unit Nat :=
  StateMachine.new sA 0 [sA, sB] [edgeAB, edgeAB2] handlerAlways false false false

def mNoMatch : StateMachine Unit Unit Nat :=
  StateMachine.new sA 0 [sA, sB] [edgeAB] handlerNever false false false

def mThree : StateMachine Unit Unit Nat :=
  StateMachine.new sA 0 [sA, sB, sC] [edgeAB, edgeAB2, edgeAC] handlerAlways false false false

def mHooks : StateMachine Unit Unit Nat :=
  StateMachine.new sA 0 [sA, sB] [edgeAB] handlerAlways true true true

def mHooksNoMatch : StateMachine Unit Unit Nat :=
  StateMachine.new sA 0 [sA, sB] [edgeAB] handlerNever true true true

def mMissingIndex : StateMachine Unit Unit Nat :=
  StateMachine.new sX 0 [sA] [] handlerAlways false false false

def recAB : TransitionRecord Unit Unit Nat :=
  { from_state := sA, to_state := sB, event := evGo, edge := edgeAB, context := 0 }

/-! ### Helper lemmas about the edge-evaluation loop -/

/-- If the decision function matches no edge, the loop visits every edge in
order and completes with the accumulator unchanged. -/
theorem scanEdges_no_match {P E C : Type} (h : EventHandler P E C) (event : Event P) (ctx : C) :
    ∀ (edges : List (Edge E)) (acc : Option (Edge E × C)),
      (∀ e ∈ edges, h event e ctx = none) →
      scanEdges h event ctx edges acc = (edges, some acc) := by
  intro edges
  induction edges with
  | nil => intro acc _; rfl
  | cons e rest ih =>
    intro acc hnone
    have he : h event e ctx = none := hnone e (List.mem_cons_self e rest)
    simp only [scanEdges, he]
    have := ih acc (fun x hx => hnone x (List.mem_cons_of_mem e hx))
    simp [this]

/-- With an already-filled accumulator, any further match makes the
`assert!` panic. -/
theorem scanEdges_panic_of_acc_some {P E C : Type} (h : EventHandler P E C)
    (event : Event P) (ctx : C) :
    ∀ (edges : List (Edge E)) (x : Edge E × C),
      (∃ e ∈ edges, (h event e ctx).isSome) →
      (scanEdges h event ctx edges (some x)).2 = none := by
  intro edges
  induction edges with
  | nil => intro x hx; simp at hx
  | cons e rest ih =>
    intro x hx
    cases he : h event e ctx with
    | some c' => simp [scanEdges, he]
    | none =>
      obtain ⟨w, hw, hws⟩ := hx
      rcases List.mem_cons.mp hw with rfl | hwrest
      · rw [he] at hws; simp at hws
      · simp only [scanEdges, he]
        exact ih x ⟨w, hwrest, hws⟩

/-- With exactly one matching edge, the loop visits every edge in order and
completes with that edge and its produced context. -/
theorem scanEdges_single_match {P E C : Type} (h : EventHandler P E C)
    (event : Event P) (ctx : C) :
    ∀ (edges : List (Edge E)) (ed : Edge E) (c' : C),
      edges.filter (fun e => (h event e ctx).isSome) = [ed] →
      h event ed ctx = some c' →
      scanEdges h event ctx edges none = (edges, some (some (ed, c'))) := by
  intro edges
  induction edges with
  | nil => intro ed c' hf; simp at hf
  | cons e rest ih =>
    intro ed c' hf hed
    cases he : h event e ctx with
    | none =>
      rw [List.filter_cons_of_neg (by simp [he])] at hf
      simp only [scanEdges, he]
      have := ih ed c' hf hed
      simp [this]
    | some c0 =>
      rw [List.filter_cons_of_pos (by simp [he])] at hf
      have he2 : e = ed := (List.cons_eq_cons.mp hf).1
      have hre : rest.filter (fun x => (h event x ctx).isSome) = [] :=
        (List.cons_eq_cons.mp hf).2
      subst he2
      have hc' : c' = c0 := by
        rw [he] at hed
        injection hed with h1
        exact h1.symm
      subst hc'
      simp only [scanEdges, he]
      have hrest : ∀ x ∈ rest, h event x ctx = none := by
        intro x hx
        have := List.filter_eq_nil_iff.mp hre x hx
        simpa using this
      have hnm := scanEdges_no_match h event ctx rest (some (e, c')) hrest
      simp [hnm]

/-- With two or more matching edges the loop ends in the `assert!` panic. -/
theorem scanEdges_panic_of_two {P E C : Type} (h : EventHandler P E C)
    (event : Event P) (ctx : C) :
    ∀ (edges : List (Edge E)),
      2 ≤ (edges.filter (fun e => (h event e ctx).isSome)).length →
      (scanEdges h event ctx edges none).2 = none := by
  intro edges
  induction edges with
  | nil => intro htwo; simp at htwo
  | cons e rest ih =>
    intro htwo
    cases he : h event e ctx with
    | none =>
      rw [List.filter_cons_of_neg (by simp [he])] at htwo
      simp only [scanEdges, he]
      exact ih htwo
    | some c0 =>
      rw [List.filter_cons_of_pos (by simp [he])] at htwo
      have hone : 1 ≤ (rest.filter (fun e => (h event e ctx).isSome)).length := by
        simpa using htwo
      have hmem : ∃ w ∈ rest, (h event w ctx).isSome := by
        rcases hfr : rest.filter (fun e => (h event e ctx).isSome) with _ | ⟨w, tail⟩
        · rw [hfr] at hone; simp at hone
        · have hw : w ∈ rest.filter (fun e => (h event e ctx).isSome) := by
            rw [hfr]; exact List.mem_cons_self w tail
          have := List.mem_filter.mp hw
          exact ⟨w, this.1, this.2⟩
      simp only [scanEdges, he]
      exact scanEdges_panic_of_acc_some h event ctx rest (e, c0) hmem

/-! ### Helper lemmas about dispatch and the adjacency map -/

/-- No branch of `dispatch` ever writes the `current_state` field: the
`mem::replace` of lib.rs line 418 targets a temporary, and every other
branch returns the machine unchanged. -/
theorem dispatch_preserves_current_state {P E C : Type}
    (m : StateMachine P E C) (event : Event P) :
    (dispatch m event).machine.current_state = m.current_state := by
  unfold dispatch
  dsimp only
  repeat' split
  all_goals simp [transitionStep]

/-- When `current_state` is `Some`, no `unwrap` inside `dispatch` (or the
`transition` it calls) panics. -/
theorem dispatch_no_unwrap_panic {P E C : Type}
    (m : StateMachine P E C) (event : Event P) (cur : State)
    (hcur : m.current_state = some cur) :
    (dispatch m event).error ≠ some DispatchError.unwrapNone := by
  unfold dispatch
  rw [hcur]
  dsimp only
  repeat' split
  all_goals simp_all [transitionStep]

/-- `runDispatches` never changes `current_state`. -/
theorem runDispatches_current_state {P E C : Type} (m : StateMachine P E C)
    (events : List (Event P)) :
    (runDispatches m events).current_state = m.current_state := by
  induction events generalizing m with
  | nil => rfl
  | cons e rest ih =>
    simp only [runDispatches]
    rw [ih, dispatch_preserves_current_state]

/-- `mapGet` after `mapInsert` with an id-equal key returns the inserted
value. -/
theorem mapGet_mapInsert_same {E : Type} (m : List (State × List (Edge E)))
    (k k' : State) (v : List (Edge E)) (h : k'.id = k.id) :
    mapGet (mapInsert m k v) k' = some v := by
  induction m with
  | nil =>
    simp only [mapInsert, mapGet]
    rw [if_pos (h.symm : k.id = k'.id)]
  | cons kv rest ih =>
    obtain ⟨k0, v0⟩ := kv
    simp only [mapInsert]
    by_cases h0 : k0.id = k.id
    · rw [if_pos h0]
      simp only [mapGet]
      rw [if_pos (h0.trans h.symm)]
    · rw [if_neg h0]
      simp only [mapGet]
      rw [if_neg (fun hc : k0.id = k'.id => h0 (hc.trans h))]
      exact ih

/-- `mapGet` after `mapInsert` with an id-distinct key is unchanged. -/
theorem mapGet_mapInsert_other {E : Type} (m : List (State × List (Edge E)))
    (k k' : State) (v : List (Edge E)) (h : k'.id ≠ k.id) :
    mapGet (mapInsert m k v) k' = mapGet m k' := by
  induction m with
  | nil =>
    simp only [mapInsert, mapGet]
    rw [if_neg (fun hc : k.id = k'.id => h hc.symm)]
  | cons kv rest ih =>
    obtain ⟨k0, v0⟩ := kv
    simp only [mapInsert]
    by_cases h0 : k0.id = k.id
    · rw [if_pos h0]
      simp only [mapGet]
      rw [if_neg (fun hc : k0.id = k'.id => h (hc.symm.trans h0)),
          if_neg (fun hc : k0.id = k'.id => h (hc.symm.trans h0))]
    · rw [if_neg h0]
      simp only [mapGet]
      by_cases h1 : k0.id = k'.id
      · rw [if_pos h1, if_pos h1]
      · rw [if_neg h1, if_neg h1]
        exact ih

/-- Folding inserts for states whose ids all differ from `s.id` leaves
`mapGet _ s` unchanged. -/
theorem mapGet_foldl_insert_of_absent {E : Type} (f : State → List (Edge E)) :
    ∀ (l : List State) (acc : List (State × List (Edge E))) (s : State),
      (∀ t ∈ l, t.id ≠ s.id) →
      mapGet (l.foldl (fun m st => mapInsert m st (f st)) acc) s = mapGet acc s := by
  intro l
  induction l with
  | nil => intro acc s _; rfl
  | cons st rest ih =>
    intro acc s habs
    simp only [List.foldl_cons]
    rw [ih _ s (fun t ht => habs t (List.mem_cons_of_mem st ht))]
    exact mapGet_mapInsert_other acc st s (f st)
      (fun hc => habs st (List.mem_cons_self st rest) hc.symm)

/-- For pairwise id-distinct states, the insert fold maps each member state
to exactly its own group. -/
theorem mapGet_foldl_insert_of_mem {E : Type} (f : State → List (Edge E)) :
    ∀ (l : List State) (acc : List (State × List (Edge E))) (s : State),
      s ∈ l → l.Pairwise (fun a b => a.id ≠ b.id) →
      mapGet (l.foldl (fun m st => mapInsert m st (f st)) acc) s = some (f s) := by
  intro l
  induction l with
  | nil => intro acc s hs; simp at hs
  | cons st rest ih =>
    intro acc s hs hpw
    obtain ⟨hhead, hrest⟩ := List.pairwise_cons.mp hpw
    simp only [List.foldl_cons]
    rcases List.mem_cons.mp hs with rfl | hsrest
    · rw [mapGet_foldl_insert_of_absent f rest _ s
        (fun t ht hc => hhead t ht hc.symm)]
      exact mapGet_mapInsert_same acc s s (f s) rfl
    · exact ih _ s hsrest hrest

/-- `List.find?` returns the first element satisfying the predicate: the
list splits around the found element with no earlier match. -/
theorem find?_first_match {α : Type} (p : α → Bool) :
    ∀ (l : List α) (a : α), l.find? p = some a →
      p a = true ∧ ∃ l1 l2, l = l1 ++ a :: l2 ∧ ∀ x ∈ l1, p x = false := by
  intro l
  induction l with
  | nil => intro a h; simp at h
  | cons b rest ih =>
    intro a h
    cases hb : p b with
    | true =>
      rw [List.find?_cons_of_pos _ hb] at h
      injection h with h1
      subst h1
      exact ⟨hb, [], rest, rfl, by simp⟩
    | false =>
      rw [List.find?_cons_of_neg _ (by simp [hb])] at h
      obtain ⟨hpa, l1, l2, hsplit, hl1⟩ := ih a h
      refine ⟨hpa, b :: l1, l2, by rw [hsplit]; rfl, ?_⟩
      intro x hx
      rcases List.mem_cons.mp hx with rfl | hx1
      · exact hb
      · exact hl1 x hx1

/-! ### The claims -/

/-- C1 (code bug): in the single-match scenario of the (commented-out) test
`it_appropriately_transitions` — states A and B, one edge A→B, a decision
function that always fires — `dispatch` completes without panic, replaces
`current_context` with the produced value and appends exactly the claimed
history record, but `current_state` remains A instead of moving to B: the
`std::mem::replace(&mut self.current_state.unwrap(), edge.to_state)` of
lib.rs line 418 writes the to-state into a temporary copy of the unwrapped
reference, never into the `current_state` field. -/
theorem C1_dispatch_never_moves_current_state :
    (dispatch mSingle evGo).error = none ∧
    (dispatch mSingle evGo).machine.current_context = 1 ∧
    (dispatch mSingle evGo).machine.transition_history = [recAB] ∧
    (dispatch mSingle evGo).machine.current_state = some sA ∧
    (dispatch mSingle evGo).machine.current_state ≠ some sB := by
  decide

/-- C3: when two or more of the current state's indexed outgoing edges'
decision functions return a value, `dispatch` fails with the
`ambiguousTransition` panic and the machine — `current_state`,
`current_context`, `transition_history` and all other fields — is exactly
as it was before the call: the `assert!` fires before any mutation. -/
theorem C3_ambiguous_fails_before_mutation {P E C : Type}
    (m : StateMachine P E C) (event : Event P) (cur : State)
    (stateEdges : List (Edge E))
    (hcur : m.current_state = some cur)
    (hmap : mapGet m.state_to_edge_map cur = some stateEdges)
    (htwo : 2 ≤ (stateEdges.filter
        (fun edge => (m.event_handler event edge m.current_context).isSome)).length) :
    (dispatch m event).error = some DispatchError.ambiguousTransition ∧
    (dispatch m event).machine = m := by
  have hscan := scanEdges_panic_of_two m.event_handler event m.current_context stateEdges htwo
  unfold dispatch
  rw [hcur]
  dsimp only
  rw [hmap]
  dsimp only
  rcases hs : scanEdges m.event_handler event m.current_context stateEdges none with ⟨calls, r⟩
  rw [hs] at hscan
  simp at hscan
  subst hscan
  simp

/-- Witness for C3: the two-edge scenario of the test
`it_panics_on_multiple_transitions` (both edges leave A and always fire). -/
theorem C3_ambiguous_fails_before_mutation_witness :
    (dispatch mAmbiguous evGo).error = some DispatchError.ambiguousTransition ∧
    (dispatch mAmbiguous evGo).machine = mAmbiguous :=
  C3_ambiguous_fails_before_mutation mAmbiguous evGo sA [edgeAB, edgeAB2]
    (by decide) (by decide) (by decide)

/-- C4: when no outgoing edge's decision function returns a value,
`dispatch` completes without panic and leaves `current_state`,
`current_context` and `transition_history` exactly as they were. -/
theorem C4_no_match_leaves_machine_unchanged {P E C : Type}
    (m : StateMachine P E C) (event : Event P) (cur : State)
    (stateEdges : List (Edge E))
    (hcur : m.current_state = some cur)
    (hmap : mapGet m.state_to_edge_map cur = some stateEdges)
    (hnone : ∀ edge ∈ stateEdges, m.event_handler event edge m.current_context = none) :
    (dispatch m event).machine.current_state = m.current_state ∧
    (dispatch m event).machine.current_context = m.current_context ∧
    (dispatch m event).machine.transition_history = m.transition_history ∧
    (dispatch m event).error = none := by
  have hscan := scanEdges_no_match m.event_handler event m.current_context stateEdges none hnone
  unfold dispatch
  rw [hcur]
  dsimp only
  rw [hmap]
  dsimp only
  rw [hscan]
  simp [hcur]

/-- Witness for C4: the scenario of the test
`it_appropriately_does_not_transition` (one edge A→B, decision function
never fires). -/
theorem C4_no_match_leaves_machine_unchanged_witness :
    (dispatch mNoMatch evGo).machine.current_state = mNoMatch.current_state ∧
    (dispatch mNoMatch evGo).machine.current_context = mNoMatch.current_context ∧
    (dispatch mNoMatch evGo).machine.transition_history = mNoMatch.transition_history ∧
    (dispatch mNoMatch evGo).error = none :=
  C4_no_match_leaves_machine_unchanged mNoMatch evGo sA [edgeAB]
    (by decide) (by decide) (by decide)

/-- C5 counterexample: with three indexed outgoing edges of A that all
match, the decision function is invoked only on the first two — the
`assert!` panics upon the second match, so the third edge is never
evaluated, refuting "invoked exactly once on each of the current state's
indexed outgoing edges" for every dispatch call. -/
theorem C5_counterexample_third_edge_not_evaluated :
    mThree.current_state = some sA ∧
    mapGet mThree.state_to_edge_map sA = some [edgeAB, edgeAB2, edgeAC] ∧
    (dispatch mThree evGo).handlerCalls = [edgeAB, edgeAB2] ∧
    (dispatch mThree evGo).handlerCalls ≠ [edgeAB, edgeAB2, edgeAC] := by
  decide

/-- C5 (amended): when at most one of the indexed outgoing edges matches,
the decision function is invoked exactly once on each of them, in index
order, regardless of an earlier match (evaluation does not stop at the
first match); a call with two or more matches instead fails with the
ambiguous-transition panic. -/
theorem C5_exhaustive_evaluation_when_at_most_one_match {P E C : Type}
    (m : StateMachine P E C) (event : Event P) (cur : State)
    (stateEdges : List (Edge E))
    (hcur : m.current_state = some cur)
    (hmap : mapGet m.state_to_edge_map cur = some stateEdges) :
    ((stateEdges.filter
        (fun edge => (m.event_handler event edge m.current_context).isSome)).length ≤ 1 →
      (dispatch m event).handlerCalls = stateEdges) ∧
    (2 ≤ (stateEdges.filter
        (fun edge => (m.event_handler event edge m.current_context).isSome)).length →
      (dispatch m event).error = some DispatchError.ambiguousTransition) := by
  constructor
  · intro hle
    rcases Nat.le_one_iff_eq_zero_or_eq_one.mp hle with hz | ho
    · have hfil := List.length_eq_zero.mp hz
      have hnone : ∀ edge ∈ stateEdges, m.event_handler event edge m.current_context = none := by
        intro edge hedge
        have := List.filter_eq_nil_iff.mp hfil edge hedge
        simpa using this
      have hscan := scanEdges_no_match m.event_handler event m.current_context
        stateEdges none hnone
      unfold dispatch
      rw [hcur]
      dsimp only
      rw [hmap]
      dsimp only
      rw [hscan]
    · obtain ⟨ed, hfil⟩ := List.length_eq_one.mp ho
      have hedmem : ed ∈ stateEdges.filter
          (fun edge => (m.event_handler event edge m.current_context).isSome) := by
        rw [hfil]; exact List.mem_cons_self ed []
      have hedsome : (m.event_handler event ed m.current_context).isSome :=
        (List.mem_filter.mp hedmem).2
      obtain ⟨c', hc'⟩ := Option.isSome_iff_exists.mp hedsome
      have hscan := scanEdges_single_match m.event_handler event m.current_context
        stateEdges ed c' hfil hc'
      unfold dispatch
      rw [hcur]
      dsimp only
      rw [hmap]
      dsimp only
      rw [hscan]
      dsimp only [transitionStep]
      rw [hcur]
  · intro htwo
    have hscan := scanEdges_panic_of_two m.event_handler event m.current_context stateEdges htwo
    unfold dispatch
    rw [hcur]
    dsimp only
    rw [hmap]
    dsimp only
    rcases hs : scanEdges m.event_handler event m.current_context stateEdges none with ⟨calls, r⟩
    rw [hs] at hscan
    simp at hscan
    subst hscan
    simp

/-- Witness for C5 (amended): the single-edge machine (one matching edge)
evaluates its one indexed outgoing edge exactly once. -/
theorem C5_exhaustive_evaluation_when_at_most_one_match_witness :
    (dispatch mSingle evGo).handlerCalls = [edgeAB] :=
  (C5_exhaustive_evaluation_when_at_most_one_match mSingle evGo sA [edgeAB]
    (by decide) (by decide)).1 (by decide)

/-- C9: dispatching while the current state has no entry in the adjacency
index fails with the `missingStateIndex` panic (the
`.expect("Could not find a state")` of lib.rs line 363) before the decision
function is invoked on any edge and before any mutation: the machine is
returned exactly as it was. -/
theorem C9_missing_index_fails_before_evaluation {P E C : Type}
    (m : StateMachine P E C) (event : Event P) (cur : State)
    (hcur : m.current_state = some cur)
    (hmap : mapGet m.state_to_edge_map cur = none) :
    (dispatch m event).error = some DispatchError.missingStateIndex ∧
    (dispatch m event).handlerCalls = [] ∧
    (dispatch m event).machine = m := by
  unfold dispatch
  rw [hcur]
  dsimp only
  rw [hmap]
  simp

/-- Witness for C9: a machine whose initial state X is not in the supplied
state collection, hence absent from the index. -/
theorem C9_missing_index_fails_before_evaluation_witness :
    (dispatch mMissingIndex evGo).error = some DispatchError.missingStateIndex ∧
    (dispatch mMissingIndex evGo).handlerCalls = [] ∧
    (dispatch mMissingIndex evGo).machine = mMissingIndex :=
  C9_missing_index_fails_before_evaluation mMissingIndex evGo sX
    (by decide) (by decide)

/-- C2 counterexample: the constructor groups edges with
`ptr::eq(edge.from_state, state)` (lib.rs line 290), not by id.  With the
state A at address 0 in the state collection and a single edge whose
from-state is a clone of A (same id "A", different address), A's indexed
list is empty although the edge's from-state id equals A's id — refuting
the claim that the index groups by string id. -/
theorem C2_counterexample_index_not_by_id :
    ¬ indexGroupsById [sA] [edgeAliasA] := by
  unfold indexGroupsById
  decide

/-- C2 (amended): the adjacency index groups edges by from-state *pointer*
identity, not id: provided the supplied states have pairwise-distinct ids,
each supplied state's indexed outgoing-edge list contains exactly those
supplied edges whose from-state reference is the same object (same
address), preserving the order of the supplied edge collection. -/
theorem C2_index_groups_by_address {E : Type} (states : List State)
    (edges : List (Edge E)) (s : State)
    (hmem : s ∈ states)
    (hdist : states.Pairwise (fun a b => a.id ≠ b.id)) :
    mapGet (buildStateToEdgeMap states edges) s =
      some (edges.filter (fun edge => edge.from_state.addr == s.addr)) := by
  unfold buildStateToEdgeMap
  exact mapGet_foldl_insert_of_mem
    (fun st => edges.filter (fun edge => edge.from_state.addr == st.addr))
    states [] s hmem hdist

/-- Witness for C2 (amended): in the two-state machine with one genuine
edge out of A and one aliasing edge, A's indexed list holds exactly the
edge whose from-state is the object A itself. -/
theorem C2_index_groups_by_address_witness :
    mapGet (buildStateToEdgeMap [sA, sB] [edgeAB, edgeAliasA]) sA =
      some ([edgeAB, edgeAliasA].filter (fun edge => edge.from_state.addr == sA.addr)) :=
  C2_index_groups_by_address [sA, sB] [edgeAB, edgeAliasA] sA (by decide) (by decide)

/-- C8: with all three hooks registered, a dispatch with exactly one
matching edge fires each hook exactly once in the order start-of-dispatch,
edge-traversal (receiving the context about to be installed), history
append, end-of-dispatch; and a dispatch with zero matching edges still
fires the end-of-dispatch hook exactly once, with the machine's
`current_state`/`current_context` as they stand at that point. -/
theorem C8_hook_order {P E C : Type}
    (m : StateMachine P E C) (event : Event P) (cur : State)
    (stateEdges : List (Edge E))
    (hcur : m.current_state = some cur)
    (hmap : mapGet m.state_to_edge_map cur = some stateEdges)
    (hstart : m.has_start_dispatch_hook = true)
    (hend : m.has_end_dispatch_hook = true)
    (htrav : m.has_on_edge_traversal_hook = true) :
    (∀ ed c',
       stateEdges.filter (fun e => (m.event_handler event e m.current_context).isSome) = [ed] →
       m.event_handler event ed m.current_context = some c' →
       (dispatch m event).hookTrace =
         [HookEvent.start event cur m.current_context,
          HookEvent.edgeTraversal event ed c',
          HookEvent.histAppend { from_state := cur, to_state := ed.to_state, event := event,
                                 edge := ed, context := m.current_context },
          HookEvent.endDispatch event cur c']) ∧
    ((∀ e ∈ stateEdges, m.event_handler event e m.current_context = none) →
       (dispatch m event).hookTrace =
         [HookEvent.start event cur m.current_context,
          HookEvent.endDispatch event cur m.current_context]) := by
  constructor
  · intro ed c' hone hed
    have hscan := scanEdges_single_match m.event_handler event m.current_context stateEdges ed c'
      hone hed
    unfold dispatch
    rw [hcur]
    dsimp only
    rw [hmap]
    dsimp only
    rw [hscan]
    dsimp only [transitionStep]
    rw [hcur]
    simp [hstart, hend, htrav]
  · intro hnone
    have hscan := scanEdges_no_match m.event_handler event m.current_context stateEdges none hnone
    unfold dispatch
    rw [hcur]
    dsimp only
    rw [hmap]
    dsimp only
    rw [hscan]
    simp [hstart, hend]

/-- Witness for C8: the hook-scenario machine of the test `it_calls_hooks`
(all hooks registered), once with the always-firing and once with the
never-firing decision function. -/
theorem C8_hook_order_witness :
    (dispatch mHooks evGo).hookTrace =
      [HookEvent.start evGo sA 0,
       HookEvent.edgeTraversal evGo edgeAB 1,
       HookEvent.histAppend recAB,
       HookEvent.endDispatch evGo sA 1] ∧
    (dispatch mHooksNoMatch evGo).hookTrace =
      [HookEvent.start evGo sA 0,
       HookEvent.endDispatch evGo sA 0] :=
  ⟨(C8_hook_order mHooks evGo sA [edgeAB] (by decide) (by decide) rfl rfl rfl).1
      edgeAB 1 (by decide) rfl,
   (C8_hook_order mHooksNoMatch evGo sA [edgeAB] (by decide) (by decide) rfl rfl rfl).2
      (by decide)⟩

/-- C6: dehydrating an `Edge` or a `TransitionRecord` into its flat
id-addressed form and hydrating that form against a candidate universe
containing the referenced objects succeeds and yields an object equal to
the original in its own id, the ids of its linked from-state / to-state /
event / edge references, and its payload (`info` resp. `context`). -/
theorem C6_hydrate_dehydrate_roundtrip {P E C : Type} :
    (∀ (x : Edge E) (states : List State),
      x.from_state ∈ states → x.to_state ∈ states →
      ∃ y, Edge.hydrate (Edge.dehydrate x) states = some y ∧
        y.id = x.id ∧ y.from_state.id = x.from_state.id ∧
        y.to_state.id = x.to_state.id ∧ y.info = x.info) ∧
    (∀ (r : TransitionRecord P E C) (states : List State)
        (edges : List (Edge E)) (events : List (Event P)),
      r.from_state ∈ states → r.to_state ∈ states →
      r.event ∈ events → r.edge ∈ edges →
      ∃ y, TransitionRecord.hydrate (TransitionRecord.dehydrate r) states edges events
            = some y ∧
        y.from_state.id = r.from_state.id ∧ y.to_state.id = r.to_state.id ∧
        y.event.id = r.event.id ∧ y.edge.id = r.edge.id ∧ y.context = r.context) := by
  constructor
  · intro x states hfrom hto
    have hfsome : (states.find? (fun state => state.id == x.from_state.id)).isSome := by
      rw [List.find?_isSome]
      exact ⟨x.from_state, hfrom, by simp⟩
    have htsome : (states.find? (fun state => state.id == x.to_state.id)).isSome := by
      rw [List.find?_isSome]
      exact ⟨x.to_state, hto, by simp⟩
    obtain ⟨fs, hfs⟩ := Option.isSome_iff_exists.mp hfsome
    obtain ⟨ts, hts⟩ := Option.isSome_iff_exists.mp htsome
    have hfsid : fs.id = x.from_state.id := by
      have := List.find?_some hfs
      simpa using this
    have htsid : ts.id = x.to_state.id := by
      have := List.find?_some hts
      simpa using this
    refine ⟨{ id := x.id, from_state := fs, to_state := ts, info := x.info },
      ?_, rfl, hfsid, htsid, rfl⟩
    unfold Edge.hydrate
    dsimp only [Edge.dehydrate]
    rw [hfs, hts]
  · intro r states edges events hfrom hto hev hed
    have hfsome : (states.find? (fun state => state.id == r.from_state.id)).isSome := by
      rw [List.find?_isSome]
      exact ⟨r.from_state, hfrom, by simp⟩
    have htsome : (states.find? (fun state => state.id == r.to_state.id)).isSome := by
      rw [List.find?_isSome]
      exact ⟨r.to_state, hto, by simp⟩
    have hevsome : (events.find? (fun event => event.id == r.event.id)).isSome := by
      rw [List.find?_isSome]
      exact ⟨r.event, hev, by simp⟩
    have hedsome : (edges.find? (fun edge => edge.id == r.edge.id)).isSome := by
      rw [List.find?_isSome]
      exact ⟨r.edge, hed, by simp⟩
    obtain ⟨fs, hfs⟩ := Option.isSome_iff_exists.mp hfsome
    obtain ⟨ts, hts⟩ := Option.isSome_iff_exists.mp htsome
    obtain ⟨ev, hevf⟩ := Option.isSome_iff_exists.mp hevsome
    obtain ⟨ed, hedf⟩ := Option.isSome_iff_exists.mp hedsome
    have hfsid : fs.id = r.from_state.id := by
      have := List.find?_some hfs
      simpa using this
    have htsid : ts.id = r.to_state.id := by
      have := List.find?_some hts
      simpa using this
    have hevid : ev.id = r.event.id := by
      have := List.find?_some hevf
      simpa using this
    have hedid : ed.id = r.edge.id := by
      have := List.find?_some hedf
      simpa using this
    refine ⟨{ from_state := fs, to_state := ts, event := ev, edge := ed,
              context := r.context },
      ?_, hfsid, htsid, hevid, hedid, rfl⟩
    unfold TransitionRecord.hydrate
    dsimp only [TransitionRecord.dehydrate]
    rw [hfs, hts, hevf, hedf]

/-- Witness for C6: round-trip of the concrete edge A→B and of a concrete
transition record, against universes containing their referents. -/
theorem C6_hydrate_dehydrate_roundtrip_witness :
    (∃ y, Edge.hydrate (Edge.dehydrate edgeAB) [sA, sB] = some y ∧
      y.id = edgeAB.id ∧ y.from_state.id = edgeAB.from_state.id ∧
      y.to_state.id = edgeAB.to_state.id ∧ y.info = edgeAB.info) ∧
    (∃ y, TransitionRecord.hydrate (TransitionRecord.dehydrate recAB)
          [sA, sB] [edgeAB] [evGo] = some y ∧
      y.from_state.id = recAB.from_state.id ∧ y.to_state.id = recAB.to_state.id ∧
      y.event.id = recAB.event.id ∧ y.edge.id = recAB.edge.id ∧
      y.context = recAB.context) :=
  ⟨(@C6_hydrate_dehydrate_roundtrip Unit Unit Nat).1 edgeAB [sA, sB]
      (by decide) (by decide),
   (@C6_hydrate_dehydrate_roundtrip Unit Unit Nat).2 recAB [sA, sB] [edgeAB] [evGo]
      (by decide) (by decide) (by decide) (by decide)⟩

/-- C7: hydration of an `Edge` or a `TransitionRecord` fails (the `expect`
panic, modelled as `none`) whenever the flat form's from-state, to-state,
event, or edge id matches nothing in the supplied universe; and when a
hydration (of an Edge, with its two lookups, or of a TransitionRecord, with
its four) succeeds, each reference was resolved by linear search with the
first id-match winning: the universe splits around the chosen object with
every earlier element failing the id test. -/
theorem C7_hydration_missing_id_fatal_first_match_wins {P E C : Type} :
    (∀ (d : DeserializableEdge E) (states : List State),
      ((∀ s ∈ states, s.id ≠ d.from_state_id) ∨ (∀ s ∈ states, s.id ≠ d.to_state_id)) →
      Edge.hydrate d states = none) ∧
    (∀ (d : DeserializableTransitionRecord C) (states : List State)
        (edges : List (Edge E)) (events : List (Event P)),
      ((∀ s ∈ states, s.id ≠ d.from_state_id) ∨ (∀ s ∈ states, s.id ≠ d.to_state_id) ∨
       (∀ ev ∈ events, ev.id ≠ d.event_id) ∨ (∀ ed ∈ edges, ed.id ≠ d.edge_id)) →
      TransitionRecord.hydrate d states edges events = none) ∧
    (∀ (d : DeserializableEdge E) (states : List State) (y : Edge E),
      Edge.hydrate d states = some y →
      (∃ l1 l2, states = l1 ++ y.from_state :: l2 ∧ y.from_state.id = d.from_state_id ∧
        ∀ s ∈ l1, s.id ≠ d.from_state_id) ∧
      (∃ l1 l2, states = l1 ++ y.to_state :: l2 ∧ y.to_state.id = d.to_state_id ∧
        ∀ s ∈ l1, s.id ≠ d.to_state_id)) ∧
    (∀ (d : DeserializableTransitionRecord C) (states : List State)
        (edges : List (Edge E)) (events : List (Event P))
        (y : TransitionRecord P E C),
      TransitionRecord.hydrate d states edges events = some y →
      (∃ l1 l2, states = l1 ++ y.from_state :: l2 ∧ y.from_state.id = d.from_state_id ∧
        ∀ s ∈ l1, s.id ≠ d.from_state_id) ∧
      (∃ l1 l2, states = l1 ++ y.to_state :: l2 ∧ y.to_state.id = d.to_state_id ∧
        ∀ s ∈ l1, s.id ≠ d.to_state_id) ∧
      (∃ l1 l2, events = l1 ++ y.event :: l2 ∧ y.event.id = d.event_id ∧
        ∀ ev ∈ l1, ev.id ≠ d.event_id) ∧
      (∃ l1 l2, edges = l1 ++ y.edge :: l2 ∧ y.edge.id = d.edge_id ∧
        ∀ ed ∈ l1, ed.id ≠ d.edge_id)) := by
  refine ⟨?_, ?_, ?_, ?_⟩
  · intro d states habs
    unfold Edge.hydrate
    rcases habs with habs | habs
    · have hnone : states.find? (fun state => state.id == d.from_state_id) = none := by
        rw [List.find?_eq_none]
        intro s hs
        simp [habs s hs]
      rw [hnone]
    · have hnone : states.find? (fun state => state.id == d.to_state_id) = none := by
        rw [List.find?_eq_none]
        intro s hs
        simp [habs s hs]
      cases hfs : states.find? (fun state => state.id == d.from_state_id) with
      | none => rfl
      | some fs => rw [hnone]
  · intro d states edges events habs
    unfold TransitionRecord.hydrate
    rcases habs with h1 | h2 | h3 | h4
    · have hnone : states.find? (fun state => state.id == d.from_state_id) = none := by
        rw [List.find?_eq_none]
        intro s hs
        simp [h1 s hs]
      rw [hnone]
    · have hnone : states.find? (fun state => state.id == d.to_state_id) = none := by
        rw [List.find?_eq_none]
        intro s hs
        simp [h2 s hs]
      cases hfs : states.find? (fun state => state.id == d.from_state_id) with
      | none => rfl
      | some fs => rw [hnone]
    · have hnone : events.find? (fun event => event.id == d.event_id) = none := by
        rw [List.find?_eq_none]
        intro ev hev
        simp [h3 ev hev]
      cases hfs : states.find? (fun state => state.id == d.from_state_id) with
      | none => rfl
      | some fs =>
        cases hts : states.find? (fun state => state.id == d.to_state_id) with
        | none => rfl
        | some ts => rw [hnone]
    · have hnone : edges.find? (fun edge => edge.id == d.edge_id) = none := by
        rw [List.find?_eq_none]
        intro ed hed
        simp [h4 ed hed]
      cases hfs : states.find? (fun state => state.id == d.from_state_id) with
      | none => rfl
      | some fs =>
        cases hts : states.find? (fun state => state.id == d.to_state_id) with
        | none => rfl
        | some ts =>
          cases hevf : events.find? (fun event => event.id == d.event_id) with
          | none => rfl
          | some ev => rw [hnone]
  · intro d states y hy
    unfold Edge.hydrate at hy
    cases hfs : states.find? (fun state => state.id == d.from_state_id) with
    | none => rw [hfs] at hy; exact absurd hy (by simp)
    | some fs =>
      rw [hfs] at hy
      cases hts : states.find? (fun state => state.id == d.to_state_id) with
      | none => rw [hts] at hy; exact absurd hy (by simp)
      | some ts =>
        rw [hts] at hy
        injection hy with hy1
        subst hy1
        obtain ⟨hpf, l1, l2, hsplit, hl1⟩ :=
          find?_first_match (fun state => state.id == d.from_state_id) states fs hfs
        obtain ⟨hpt, l1', l2', hsplit', hl1'⟩ :=
          find?_first_match (fun state => state.id == d.to_state_id) states ts hts
        constructor
        · refine ⟨l1, l2, hsplit, by simpa using hpf, ?_⟩
          intro s hs
          have := hl1 s hs
          simpa using this
        · refine ⟨l1', l2', hsplit', by simpa using hpt, ?_⟩
          intro s hs
          have := hl1' s hs
          simpa using this
  · intro d states edges events y hy
    unfold TransitionRecord.hydrate at hy
    cases hfs : states.find? (fun state => state.id == d.from_state_id) with
    | none => rw [hfs] at hy; exact absurd hy (by simp)
    | some fs =>
      rw [hfs] at hy
      cases hts : states.find? (fun state => state.id == d.to_state_id) with
      | none => rw [hts] at hy; exact absurd hy (by simp)
      | some ts =>
        rw [hts] at hy
        cases hevf : events.find? (fun event => event.id == d.event_id) with
        | none => rw [hevf] at hy; exact absurd hy (by simp)
        | some ev =>
          rw [hevf] at hy
          cases hedf : edges.find? (fun edge => edge.id == d.edge_id) with
          | none => rw [hedf] at hy; exact absurd hy (by simp)
          | some ed =>
            rw [hedf] at hy
            injection hy with hy1
            subst hy1
            obtain ⟨hpf, l1, l2, hsplit, hl1⟩ :=
              find?_first_match (fun state => state.id == d.from_state_id) states fs hfs
            obtain ⟨hpt, m1, m2, hsplit2, hm1⟩ :=
              find?_first_match (fun state => state.id == d.to_state_id) states ts hts
            obtain ⟨hpe, n1, n2, hsplit3, hn1⟩ :=
              find?_first_match (fun event => event.id == d.event_id) events ev hevf
            obtain ⟨hpd, k1, k2, hsplit4, hk1⟩ :=
              find?_first_match (fun edge => edge.id == d.edge_id) edges ed hedf
            refine ⟨⟨l1, l2, hsplit, by simpa using hpf, ?_⟩,
                    ⟨m1, m2, hsplit2, by simpa using hpt, ?_⟩,
                    ⟨n1, n2, hsplit3, by simpa using hpe, ?_⟩,
                    ⟨k1, k2, hsplit4, by simpa using hpd, ?_⟩⟩
            · intro s hs
              have := hl1 s hs
              simpa using this
            · intro s hs
              have := hm1 s hs
              simpa using this
            · intro ev2 hev2
              have := hn1 ev2 hev2
              simpa using this
            · intro ed2 hed2
              have := hk1 ed2 hed2
              simpa using this

/-- Witness for C7: a flat edge whose from-state id "Z" is absent from the
universe fails to hydrate; a flat record with an absent edge id fails;
hydrating the dehydrated A→B edge against a universe led by an aliasing
clone of A resolves the first id-match; and record hydration against the
same aliased state universe likewise resolves its from-state to the first
id-match. -/
theorem C7_hydration_missing_id_fatal_first_match_wins_witness :
    Edge.hydrate
      { id := "e9", from_state_id := "Z", to_state_id := "B", info := () } [sA, sB] = none ∧
    @TransitionRecord.hydrate Unit Unit Nat
      { from_state_id := "A", to_state_id := "B", event_id := "go", edge_id := "zz",
        context := (0 : Nat) } [sA, sB] [edgeAB] [evGo] = none ∧
    (∃ l1 l2, ([sAalias, sA, sB] : List State) = l1 ++ sAalias :: l2 ∧
        sAalias.id = (Edge.dehydrate edgeAB).from_state_id ∧
        ∀ s ∈ l1, s.id ≠ (Edge.dehydrate edgeAB).from_state_id) ∧
    (∃ l1 l2, ([sAalias, sA, sB] : List State) = l1 ++ sAalias :: l2 ∧
        sAalias.id = (TransitionRecord.dehydrate recAB).from_state_id ∧
        ∀ s ∈ l1, s.id ≠ (TransitionRecord.dehydrate recAB).from_state_id) := by
  refine ⟨?_, ?_, ?_, ?_⟩
  · exact (@C7_hydration_missing_id_fatal_first_match_wins Unit Unit Nat).1
      { id := "e9", from_state_id := "Z", to_state_id := "B", info := () } [sA, sB]
      (Or.inl (by decide))
  · exact (@C7_hydration_missing_id_fatal_first_match_wins Unit Unit Nat).2.1
      { from_state_id := "A", to_state_id := "B", event_id := "go", edge_id := "zz",
        context := (0 : Nat) } [sA, sB] [edgeAB] [evGo]
      (Or.inr (Or.inr (Or.inr (by decide))))
  · exact ((@C7_hydration_missing_id_fatal_first_match_wins Unit Unit Nat).2.2.1
      (Edge.dehydrate edgeAB) [sAalias, sA, sB]
      { id := "e1", from_state := sAalias, to_state := sB, info := () }
      (by decide)).1
  · exact ((@C7_hydration_missing_id_fatal_first_match_wins Unit Unit Nat).2.2.2
      (TransitionRecord.dehydrate recAB) [sAalias, sA, sB] [edgeAB] [evGo]
      { from_state := sAalias, to_state := sB, event := evGo, edge := edgeAB,
        context := 0 }
      (by decide)).1

/-- C10: `StateMachine::new` installs `Some(initial_state)`; no sequence of
dispatches ever assigns `None` to `current_state` (in fact `dispatch` never
writes the field at all), so the `current_state.unwrap()` calls inside any
subsequent `dispatch` (and the `transition` it performs) all succeed — no
dispatch fails with the unwrap panic. -/
theorem C10_current_state_always_some {P E C : Type}
    (initial_state : State) (initial_context : C) (states : List State)
    (edges : List (Edge E)) (event_handler : EventHandler P E C)
    (b1 b2 b3 : Bool) (events : List (Event P)) (event : Event P) :
    (runDispatches
        (StateMachine.new initial_state initial_context states edges event_handler b1 b2 b3)
        events).current_state = some initial_state ∧
    (dispatch
        (runDispatches
          (StateMachine.new initial_state initial_context states edges event_handler b1 b2 b3)
          events)
        event).error ≠ some DispatchError.unwrapNone := by
  have h1 : (runDispatches
      (StateMachine.new initial_state initial_context states edges event_handler b1 b2 b3)
      events).current_state = some initial_state := by
    rw [runDispatches_current_state]
    rfl
  exact ⟨h1, dispatch_no_unwrap_panic _ event initial_state h1⟩

end RustyStateMachine
